import Mathlib

/-!
Verification development for the forked billing/cost-accounting code of a
LibreChat fork.  The definitions below are shallow embeddings of:

* `api/server/forked-code/litellm/modelInfoCache.js` (model-price cache),
* `api/server/forked-code/agents/syncResponseUsage.js` (usage breakdown,
  rate/cost computation, usage snapshot),
* `api/server/forked-code/routes/lago.js` (subscription-check proxy),
* `client/src/forked-code-custom/currencyAdapter.ts` (USD→NOK rate cache),
* the client cost-breakdown component (`buildBreakdownFromRates`,
  `convertCurrency`).

JavaScript numbers are modelled as exact rationals (`ℚ`); the distinguished
values `null`/`undefined`, `NaN` and `±Infinity`, which the code's sanitizers
and `??`/`||` operators treat specially, are modelled by the `JSNum` type.
-/

/-- A JavaScript value read as a number: `absent` is `null`/`undefined`,
`nan` is `NaN`, `inf`/`ninf` are `±Infinity`, `num q` is a finite number. -/
inductive JSNum where
  | absent
  | nan
  | inf
  | ninf
  | num (q : ℚ)
deriving DecidableEq

/-- `toPositiveNumber` from `syncResponseUsage.js` / the client component:
`Number(value)` kept when finite and strictly positive, else `0`. -/
def toPositiveNumber : JSNum → ℚ
  | .num q => if 0 < q then q else 0
  | _ => 0

/-- `toNonNegativeNumber`: `Number(value)` kept when finite and `≥ 0`, else `0`. -/
def toNonNegativeNumber : JSNum → ℚ
  | .num q => if 0 ≤ q then q else 0
  | _ => 0

/-- `toOptionalNumber`: `Number(value)` when finite, else `null`. -/
def toOptionalNumber : JSNum → Option ℚ
  | .num q => some q
  | _ => none

/-- JavaScript nullish coalescing `a ?? b`: only `null`/`undefined` fall through. -/
def jsCoalesce : JSNum → JSNum → JSNum
  | .absent, b => b
  | a, _ => a

/-- JavaScript truthiness of a numeric value: `null`, `undefined`, `NaN` and
`0` are falsy; every other number (including `±Infinity`) is truthy. -/
def jsTruthy : JSNum → Bool
  | .absent => false
  | .nan => false
  | .inf => true
  | .ninf => true
  | .num q => decide (q ≠ 0)

/-- JavaScript logical or `a || b` on numeric values. -/
def jsOr (a b : JSNum) : JSNum := if jsTruthy a then a else b

/-- Reinject an optional rational (a `number | null` field) as a JS value. -/
def jsOfOpt : Option ℚ → JSNum
  | some q => .num q
  | none => .absent

/-- One entry of `client.collectedUsage`: the four places
`getReasoningTokens` looks for a reasoning-token count. -/
structure UsageEntry where
  reasoning_tokens : JSNum
  outputDetailsReasoning : JSNum
  completionDetailsReasoning : JSNum
  nestedCompletionDetailsReasoning : JSNum
deriving DecidableEq

/-- `getReasoningTokens` from `syncResponseUsage.js`: the `??`-chain over the
four candidate fields, sanitized by `toPositiveNumber`. -/
def getReasoningTokens (u : UsageEntry) : ℚ :=
  toPositiveNumber
    (jsCoalesce u.reasoning_tokens
      (jsCoalesce u.outputDetailsReasoning
        (jsCoalesce u.completionDetailsReasoning u.nestedCompletionDetailsReasoning)))

/-- The `client.getStreamUsage()` result consumed by `buildUsageBreakdown`. -/
structure StreamUsage where
  input_tokens : JSNum
  output_tokens : JSNum
deriving DecidableEq

/-- Result of `buildUsageBreakdown`. -/
structure UsageBreakdown where
  inputTokens : ℚ
  outputTokens : ℚ
  effectiveInputTokens : ℚ
  effectiveOutputTokens : ℚ
  reasoningTokens : ℚ
deriving DecidableEq

/-- `buildUsageBreakdown` from `syncResponseUsage.js`.  `collectedUsage` is a
list whose entries may be null (`filter(Boolean)` drops those). -/
def buildUsageBreakdown (streamUsage : StreamUsage)
    (collectedUsage : List (Option UsageEntry)) : UsageBreakdown :=
  let inputTokens := toPositiveNumber streamUsage.input_tokens
  let outputTokens := toPositiveNumber streamUsage.output_tokens
  let usageList := collectedUsage.filterMap id
  let reasoningTokens :=
    min outputTokens (usageList.foldl (fun sum u => sum + getReasoningTokens u) 0)
  let effectiveOutputTokens := max 0 (outputTokens - reasoningTokens)
  { inputTokens := inputTokens
    outputTokens := outputTokens
    effectiveInputTokens := inputTokens
    effectiveOutputTokens := effectiveOutputTokens
    reasoningTokens := reasoningTokens }

/-- The pricing fields of one `model_info` entry from the LiteLLM `/model/info`
payload, as read by `buildRates`. -/
structure ModelInfo where
  input_cost_per_token : JSNum
  output_cost_per_token : JSNum
  output_cost_per_reasoning_token : JSNum
deriving DecidableEq

/-- The `rates` object produced by `buildRates` (fields are `number | null`). -/
structure Rates where
  input_cost_per_token : Option ℚ
  output_cost_per_token : Option ℚ
  output_cost_per_reasoning_token : Option ℚ
deriving DecidableEq

/-- `buildRates` from `syncResponseUsage.js`: sanitizes the three per-token
rates, defaults the reasoning rate to the output rate via `??`, and returns
`null` when all three are `null`. -/
def buildRates (modelInfo : Option ModelInfo) : Option Rates :=
  match modelInfo with
  | none => none
  | some mi =>
    let inputCostPerToken := toOptionalNumber mi.input_cost_per_token
    let outputCostPerToken := toOptionalNumber mi.output_cost_per_token
    let outputCostPerReasoningToken :=
      (toOptionalNumber mi.output_cost_per_reasoning_token).orElse
        (fun _ => outputCostPerToken)
    if inputCostPerToken = none ∧ outputCostPerToken = none ∧
        outputCostPerReasoningToken = none then
      none
    else
      some { input_cost_per_token := inputCostPerToken
             output_cost_per_token := outputCostPerToken
             output_cost_per_reasoning_token := outputCostPerReasoningToken }

/-- The `costs` object produced by `buildCosts`. -/
structure Costs where
  input : ℚ
  output : ℚ
  reasoning : ℚ
  total : ℚ
deriving DecidableEq

/-- `buildCosts` from `syncResponseUsage.js`: `null` rates skip the
computation entirely; otherwise each cost is tokens × sanitized rate and
`total` is their exact sum. -/
def buildCosts (breakdown : UsageBreakdown) (rates : Option Rates) : Option Costs :=
  match rates with
  | none => none
  | some r =>
    let inputCost :=
      breakdown.effectiveInputTokens * toNonNegativeNumber (jsOfOpt r.input_cost_per_token)
    let outputCost :=
      breakdown.effectiveOutputTokens * toNonNegativeNumber (jsOfOpt r.output_cost_per_token)
    let reasoningCost :=
      breakdown.reasoningTokens *
        toNonNegativeNumber (jsOfOpt r.output_cost_per_reasoning_token)
    some { input := inputCost
           output := outputCost
           reasoning := reasoningCost
           total := inputCost + outputCost + reasoningCost }

/-- The `rates` field of a persisted usage snapshot as the client reads it
(`LiteLLMRates` in the cost-breakdown component): JSON values that may be
absent or non-finite. -/
structure LiteLLMRates where
  input_cost_per_token : JSNum
  output_cost_per_token : JSNum
  output_cost_per_reasoning_token : JSNum
deriving DecidableEq

/-- The `CostBreakdown` record built by the client component. -/
structure CostBreakdown where
  model : Option String
  currency : String
  lockedRates : Bool
  inputTokens : ℚ
  outputTokens : ℚ
  reasoningTokens : Option ℚ
  effectiveInputTokens : ℚ
  effectiveOutputTokens : ℚ
  inputCost : ℚ
  outputCost : ℚ
  reasoningCost : ℚ
  totalCost : ℚ
  inputRatePerMillion : ℚ
  outputRatePerMillion : ℚ
deriving DecidableEq

/-- `buildBreakdownFromRates` from the client cost-breakdown component.
Note the reasoning rate uses JavaScript `||` (not `??`):
`toNonNegativeNumber(rates.output_cost_per_reasoning_token || outputRate)`. -/
def buildBreakdownFromRates (model : Option String) (inputTokens outputTokens : ℚ)
    (reasoningTokens : Option ℚ) (rates : LiteLLMRates) (lockedRates : Bool) :
    CostBreakdown :=
  let cappedReasoningTokens := reasoningTokens.map (fun r => min outputTokens r)
  let effectiveOutputTokens := max 0 (outputTokens - cappedReasoningTokens.getD 0)
  let inputRate := toNonNegativeNumber rates.input_cost_per_token
  let outputRate := toNonNegativeNumber rates.output_cost_per_token
  let reasoningRate :=
    toNonNegativeNumber (jsOr rates.output_cost_per_reasoning_token (.num outputRate))
  let inputCost := inputTokens * inputRate
  let outputCost := effectiveOutputTokens * outputRate
  let reasoningCost := cappedReasoningTokens.getD 0 * reasoningRate
  { model := model
    currency := "USD"
    lockedRates := lockedRates
    inputTokens := inputTokens
    outputTokens := outputTokens
    reasoningTokens := cappedReasoningTokens
    effectiveInputTokens := inputTokens
    effectiveOutputTokens := effectiveOutputTokens
    inputCost := inputCost
    outputCost := outputCost
    reasoningCost := reasoningCost
    totalCost := inputCost + outputCost + reasoningCost
    inputRatePerMillion := inputRate * 1000000
    outputRatePerMillion := outputRate * 1000000 }

/-- The two display currencies of the client component. -/
inductive SupportedCurrency where
  | USD
  | NOK
deriving DecidableEq

/-- `convertCurrency` from the client component.  The TS parameter names are
`amount`, `from`, `to`, `usdToNokRate`; `from` is a reserved word in Lean, so
the direction parameters are `src`/`dst`. -/
def convertCurrency (amount : ℚ) (src dst : SupportedCurrency)
    (usdToNokRate : Option ℚ) : ℚ :=
  if src = dst then amount
  else
    match usdToNokRate with
    | none => amount
    | some rate =>
      if rate ≤ 0 then amount
      else if src = .USD ∧ dst = .NOK then amount * rate
      else if src = .NOK ∧ dst = .USD then amount / rate
      else amount

/-- The `forked_litellm_usage` snapshot written by `syncResponseUsage`.
Optional fields model the conditional spreads `...(rates ? { rates } : {})`
and `...(costs ? { costs } : {})`: `none` means the key is absent. -/
structure UsageSnapshot where
  version : ℕ
  input_tokens : ℚ
  output_tokens : ℚ
  reasoning_tokens : ℚ
  model : Option String
  rates : Option Rates
  costs : Option Costs
  currency : String
deriving DecidableEq

/-- The snapshot-construction part of `syncResponseUsage` (persist pass):
look the model up in the LiteLLM model-info map (absent model or cache miss
gives `null` rates), build rates and costs, and assemble the
`forked_litellm_usage` metadata object. -/
def buildUsageSnapshot (model : Option String)
    (modelInfoMap : String → Option ModelInfo) (breakdown : UsageBreakdown) :
    UsageSnapshot :=
  let rates :=
    match model with
    | none => none
    | some m => buildRates (modelInfoMap m)
  let costs := buildCosts breakdown rates
  { version := 2
    input_tokens := breakdown.inputTokens
    output_tokens := breakdown.outputTokens
    reasoning_tokens := breakdown.reasoningTokens
    model := model
    rates := rates
    costs := costs
    currency := "USD" }

/-- ASCII lowering of one character (`String.prototype.toLowerCase` on the
ASCII range; Lean's builtin `Char.toLower` chain does not reduce in the
kernel, so the JS library function is modelled directly). -/
def lowerChar (c : Char) : Char :=
  if 65 ≤ c.toNat ∧ c.toNat ≤ 90 then Char.ofNat (c.toNat + 32) else c

/-- `String.prototype.toLowerCase` (ASCII model). -/
def jsToLower (s : String) : String := ⟨s.data.map lowerChar⟩

/-- ASCII whitespace, for the `trim` model. -/
def isSpaceChar (c : Char) : Bool := c = ' ' || c = '\t' || c = '\n' || c = '\r'

/-- `String.prototype.trim` (ASCII whitespace model). -/
def jsTrim (s : String) : String :=
  ⟨((s.data.dropWhile isSpaceChar).reverse.dropWhile isSpaceChar).reverse⟩

/-- Comma splitting of a character list (`String.prototype.split(',')`). -/
def splitCommaAux : List Char → List Char → List (List Char)
  | [], acc => [acc.reverse]
  | c :: cs, acc =>
    if c = ',' then acc.reverse :: splitCommaAux cs [] else splitCommaAux cs (c :: acc)

/-- `String.prototype.split(',')`. -/
def jsSplitComma (s : String) : List String :=
  (splitCommaAux s.data []).map (fun cs => ⟨cs⟩)

/-- JavaScript truthiness of an optional string (`undefined`, `null` and the
empty string are falsy). -/
def strTruthy : Option String → Bool
  | none => false
  | some s => !s.data.isEmpty

/-- The environment variables read by the subscription route in `lago.js`. -/
structure Env where
  apiKey : Option String
  whitelistedEmailsVar : Option String
  whitelistedUsersVar : Option String

/-- `LAGO_WHITELISTED_EMAILS` parsing: split on commas, trim, lowercase
(empty/absent variable gives the empty list). -/
def parseWhitelistedEmails (env : Env) : List String :=
  match env.whitelistedEmailsVar with
  | some s =>
    if s.data.isEmpty then [] else (jsSplitComma s).map (fun e => jsToLower (jsTrim e))
  | none => []

/-- `LAGO_WHITELISTED_USERS` parsing: split on commas and trim. -/
def parseWhitelistedUsers (env : Env) : List String :=
  match env.whitelistedUsersVar with
  | some s => if s.data.isEmpty then [] else (jsSplitComma s).map (fun u => jsTrim u)
  | none => []

/-- The `billing_configuration` object of a Lago customer. -/
structure BillingConfiguration where
  payment_provider : Option String
  provider_customer_id : Option String
deriving DecidableEq

/-- A Lago customer record, as consumed by the subscription route. -/
structure Customer where
  email : Option String
  external_id : String
  billing_configuration : Option BillingConfiguration
deriving DecidableEq

/-- A Lago subscription record (opaque to the route beyond its presence). -/
structure Subscription where
  external_id : String
deriving DecidableEq

/-- The route's possible `reason` values. -/
inductive DenialReason where
  | no_account
  | no_payment_method
  | no_active_subscription
deriving DecidableEq

/-- The JSON body returned by `GET /subscription`.  `none` on an optional
field means the key is absent from the returned object. -/
structure SubscriptionBody where
  hasSubscription : Bool
  whitelisted : Option Bool
  subscription : Option Subscription
  reason : Option DenialReason
  checkoutUrl : Option (Option String)
  error : Option Bool
  errorMessage : Option String
  fallback : Option Bool
deriving DecidableEq

/-- The catch-handler body of `lago.js`: the fail-closed denial response
`{ hasSubscription: false, error: true, errorMessage, fallback: false }`. -/
def errorDenialBody : SubscriptionBody :=
  { hasSubscription := false
    whitelisted := none
    subscription := none
    reason := none
    checkoutUrl := none
    error := some true
    errorMessage := some ("Error connecting to subscription service")
    fallback := some false }

/-- The whitelist-bypass body `{ hasSubscription: true, whitelisted: true,
subscription: null }`. -/
def whitelistGrantBody : SubscriptionBody :=
  { hasSubscription := true
    whitelisted := some true
    subscription := none
    reason := none
    checkoutUrl := none
    error := none
    errorMessage := none
    fallback := none }

/-- A denial body with a `reason` and optionally a `checkoutUrl` key. -/
def reasonDenialBody (r : DenialReason) (checkoutUrl : Option (Option String)) :
    SubscriptionBody :=
  { hasSubscription := false
    whitelisted := some false
    subscription := none
    reason := some r
    checkoutUrl := checkoutUrl
    error := none
    errorMessage := none
    fallback := none }

/-- The granted body when an active subscription is found. -/
def subscriptionGrantBody (s : Subscription) : SubscriptionBody :=
  { hasSubscription := true
    whitelisted := some false
    subscription := some s
    reason := none
    checkoutUrl := none
    error := none
    errorMessage := none
    fallback := none }

/-- Outcome of the route: an HTTP 500 with an error message, or a 200 JSON
body. -/
inductive HandlerResult where
  | status500 (msg : String)
  | ok (body : SubscriptionBody)
deriving DecidableEq

/-- The whitelist condition of `lago.js`:
`(email && whitelistedEmails.includes(email.toLowerCase())) ||
whitelistedUsers.includes(userId)`. -/
def whitelistHit (env : Env) (userId : String) (email : Option String) : Bool :=
  (match email with
   | some e => (parseWhitelistedEmails env).contains (jsToLower e)
   | none => false) ||
  (parseWhitelistedUsers env).contains userId

/-- `getCheckoutUrl` from `lago.js`: the checkout POST's own failures are
caught and yield `null` (non-critical). -/
def getCheckoutUrl (checkoutQ : Except Unit (Option String)) : Option String :=
  match checkoutQ with
  | .ok u => u
  | .error _ => none

/-- The `GET /subscription` handler of `lago.js` (current, JWT-auth revision).
The three provider interactions are passed as oracles: `customersQ` is the
`GET /customers` result, `subsQ` the `GET /subscriptions` result (each
`Except.error` when the request throws: network failure, timeout or non-2xx),
`checkoutQ` the checkout-URL POST.  The second component counts the provider
requests actually issued.  An `Except.error` from `customersQ`/`subsQ`
propagates to the route's catch handler, which returns `errorDenialBody`. -/
def subscriptionHandler (env : Env) (userId : String) (email : Option String)
    (customersQ : Except Unit (List Customer))
    (subsQ : Except Unit (List Subscription))
    (checkoutQ : Except Unit (Option String)) : HandlerResult × ℕ :=
  match env.apiKey with
  | none => (.status500 ("Lago API key not configured"), 0)
  | some _ =>
    if whitelistHit env userId email then
      (.ok whitelistGrantBody, 0)
    else
      match email with
      | none => (.ok (reasonDenialBody .no_account none), 0)
      | some email =>
        match customersQ with
        | .error _ => (.ok errorDenialBody, 1)
        | .ok customers =>
          match customers.find?
              (fun c =>
                match c.email with
                | some ce => jsToLower ce = jsToLower email
                | none => false) with
          | none => (.ok (reasonDenialBody .no_account none), 1)
          | some customer =>
            let billingConfig := customer.billing_configuration.getD ⟨none, none⟩
            if !strTruthy billingConfig.payment_provider ||
                !strTruthy billingConfig.provider_customer_id then
              if strTruthy billingConfig.payment_provider then
                (.ok (reasonDenialBody .no_payment_method
                        (some (getCheckoutUrl checkoutQ))), 2)
              else
                (.ok (reasonDenialBody .no_payment_method (some none)), 1)
            else
              match subsQ with
              | .error _ => (.ok errorDenialBody, 2)
              | .ok subscriptions =>
                match subscriptions with
                | s :: _ => (.ok (subscriptionGrantBody s), 2)
                | [] =>
                  (.ok (reasonDenialBody .no_active_subscription
                          (some (getCheckoutUrl checkoutQ))), 3)

/-- The LiteLLM model-info map held by the server-side cache, modelled as an
association list (the JS object keyed by model name). -/
abbrev ModelInfoMap := List (String × ModelInfo)

/-- `CACHE_DURATION_MS = 60 * 60 * 1000` (shared by `modelInfoCache.js` and
`currencyAdapter.ts`). -/
def CACHE_DURATION_MS : ℕ := 60 * 60 * 1000

/-- The module-level state of `modelInfoCache.js`: `cache`, `cacheTimestamp`
and `inflightPromise` (identified by a fetch id drawn from `nextFetchId`).
`fetchesIssued` counts the upstream fetches started so far. -/
structure CacheState where
  cache : Option ModelInfoMap
  cacheTimestamp : ℕ
  inflight : Option ℕ
  nextFetchId : ℕ
  fetchesIssued : ℕ
deriving DecidableEq

/-- What one synchronous run of `getLiteLLMModelInfoMap` up to its first
suspension does: return the fresh cache, await the existing in-flight
promise, or start (and await) a new upstream fetch. -/
inductive CallOutcome where
  | cached (m : ModelInfoMap)
  | awaitInflight (id : ℕ)
  | startFetch (id : ℕ)
deriving DecidableEq

/-- The freshness test `cache && now - cacheTimestamp < CACHE_DURATION_MS`
(the cache object, even empty, is truthy once set). -/
def cacheFresh (s : CacheState) (now : ℕ) : Bool :=
  s.cache.isSome && decide (now - s.cacheTimestamp < CACHE_DURATION_MS)

/-- Cache-miss continuation of `getLiteLLMModelInfoMap`: a non-null
`inflightPromise` is returned as-is; otherwise a new fetch is started and
recorded in `inflightPromise`. -/
def getCallMiss (s : CacheState) : CacheState × CallOutcome :=
  match s.inflight with
  | some id => (s, .awaitInflight id)
  | none =>
    ({ s with
        inflight := some s.nextFetchId
        nextFetchId := s.nextFetchId + 1
        fetchesIssued := s.fetchesIssued + 1 }, .startFetch s.nextFetchId)

/-- The synchronous part of `getLiteLLMModelInfoMap`, run atomically on the
event loop: a fresh cache is returned directly; otherwise the cache-miss
continuation runs. -/
def getCall (s : CacheState) (now : ℕ) : CacheState × CallOutcome :=
  match s.cache with
  | some m =>
    if now - s.cacheTimestamp < CACHE_DURATION_MS then (s, .cached m)
    else getCallMiss s
  | none => getCallMiss s

/-- Resolution of the in-flight fetch on success (`.then` handler of
`getLiteLLMModelInfoMap`): store the data, stamp the cache, clear
`inflightPromise` (`.finally`), and resolve with the data. -/
def resolveFetchSuccess (s : CacheState) (data : ModelInfoMap) (now : ℕ) :
    CacheState × ModelInfoMap :=
  ({ s with cache := some data, cacheTimestamp := now, inflight := none }, data)

/-- Resolution of the in-flight fetch on failure (`.catch` handler): log,
clear `inflightPromise` (`.finally`), and resolve with `cache ?? {}` — the
stale cached map, or the empty map when nothing was ever cached.  The
promise resolves (never rejects). -/
def resolveFetchFailure (s : CacheState) : CacheState × ModelInfoMap :=
  ({ s with inflight := none }, s.cache.getD [])

/-- `FAILURE_BACKOFF_MS = 60_000` from `currencyAdapter.ts`. -/
def FAILURE_BACKOFF_MS : ℕ := 60000

/-- The module-level state of `currencyAdapter.ts`: `usdToNokRateCache`,
`lastFetchTime`, the `lastFetchFailed` failure flag, and whether
`usdToNokRatePromise` is non-null. -/
structure CurrencyState where
  usdToNokRateCache : Option ℚ
  lastFetchTime : ℕ
  lastFetchFailed : Bool
  inflight : Bool
deriving DecidableEq

/-- What one synchronous run of `fetchUsdToNokRate` up to its first
suspension does. -/
inductive CurrencyCallOutcome where
  | cached (r : Option ℚ)
  | awaitInflight
  | startFetch
deriving DecidableEq

/-- The synchronous part of `fetchUsdToNokRate`: the cooldown is
`FAILURE_BACKOFF_MS` when the last fetch failed and `CACHE_DURATION_MS`
otherwise; within the cooldown the cached value (possibly `null`) is
returned without touching the network; otherwise an existing in-flight
promise is awaited; otherwise a new fetch starts. -/
def currencyCall (s : CurrencyState) (now : ℕ) : CurrencyState × CurrencyCallOutcome :=
  let cooldown := if s.lastFetchFailed then FAILURE_BACKOFF_MS else CACHE_DURATION_MS
  if now - s.lastFetchTime < cooldown then (s, .cached s.usdToNokRateCache)
  else if s.inflight then (s, .awaitInflight)
  else ({ s with inflight := true }, .startFetch)

/-- Resolution of the currency fetch.  `response` is the upstream outcome:
`Except.error` for a network failure, the 5s abort, or a non-ok HTTP status
(the `!response.ok` throw), `Except.ok v` the JSON value `data?.rates?.NOK`.
A non-finite or non-positive rate throws (`Invalid USD/NOK rate`) into the
same catch.  The success path stores the rate, stamps `lastFetchTime` and
clears `lastFetchFailed`; the catch handler stamps `lastFetchTime`, sets
`lastFetchFailed` and resolves with the previously cached rate (`null` if
none); it never throws to the caller. -/
def currencyFetchResolve (s : CurrencyState) (response : Except Unit JSNum)
    (now : ℕ) : CurrencyState × Option ℚ :=
  match response with
  | .error _ =>
    ({ s with lastFetchTime := now, lastFetchFailed := true, inflight := false },
     s.usdToNokRateCache)
  | .ok v =>
    match toOptionalNumber v with
    | some rate =>
      if 0 < rate then
        ({ usdToNokRateCache := some rate, lastFetchTime := now,
           lastFetchFailed := false, inflight := false },
         some rate)
      else
        ({ s with lastFetchTime := now, lastFetchFailed := true, inflight := false },
         s.usdToNokRateCache)
    | none =>
      ({ s with lastFetchTime := now, lastFetchFailed := true, inflight := false },
       s.usdToNokRateCache)

/-- C2: for every token-usage input — including inputs whose summed reasoning
token counts exceed `output_tokens` — the server breakdown satisfies
`reasoningTokens ≤ outputTokens` and
`effectiveOutputTokens = max 0 (outputTokens - reasoningTokens)`, hence is
never negative; and the client breakdown's capped reasoning count satisfies
the same bounds. -/
theorem reasoning_tokens_clamped (su : StreamUsage) (cu : List (Option UsageEntry)) :
    ((buildUsageBreakdown su cu).reasoningTokens ≤ (buildUsageBreakdown su cu).outputTokens ∧
      (buildUsageBreakdown su cu).effectiveOutputTokens =
        max 0 ((buildUsageBreakdown su cu).outputTokens -
          (buildUsageBreakdown su cu).reasoningTokens) ∧
      0 ≤ (buildUsageBreakdown su cu).effectiveOutputTokens) ∧
    ∀ (model : Option String) (it ot : ℚ) (rt : Option ℚ) (rates : LiteLLMRates)
      (lr : Bool) (r' : ℚ),
      (buildBreakdownFromRates model it ot rt rates lr).reasoningTokens = some r' →
      r' ≤ (buildBreakdownFromRates model it ot rt rates lr).outputTokens ∧
      (buildBreakdownFromRates model it ot rt rates lr).effectiveOutputTokens =
        max 0 ((buildBreakdownFromRates model it ot rt rates lr).outputTokens - r') ∧
      0 ≤ (buildBreakdownFromRates model it ot rt rates lr).effectiveOutputTokens := by
  refine ⟨⟨min_le_left _ _, rfl, le_max_left _ _⟩, ?_⟩
  intro model it ot rt rates lr r' h
  have h' : rt.map (fun r => min ot r) = some r' := h
  rcases Option.map_eq_some'.mp h' with ⟨r, hrt, hmin⟩
  refine ⟨?_, ?_, le_max_left _ _⟩
  · show r' ≤ ot
    rw [← hmin]
    exact min_le_left _ _
  · show max 0 (ot - (rt.map (fun r => min ot r)).getD 0) = max 0 (ot - r')
    rw [hrt]
    simp [hmin]

/-- C2 witness: concrete input with summed reasoning tokens (700) exceeding
`output_tokens` (500); both clamps hold. -/
theorem reasoning_tokens_clamped_witness :
    ((buildUsageBreakdown ⟨.num 1000, .num 500⟩
        [some ⟨.num 700, .absent, .absent, .absent⟩]).reasoningTokens ≤
      (buildUsageBreakdown ⟨.num 1000, .num 500⟩
        [some ⟨.num 700, .absent, .absent, .absent⟩]).outputTokens) ∧
    ((3 : ℚ) ≤ (buildBreakdownFromRates none 1000 500 (some 3)
        ⟨.absent, .absent, .absent⟩ true).outputTokens) := by
  refine ⟨(reasoning_tokens_clamped ⟨.num 1000, .num 500⟩
    [some ⟨.num 700, .absent, .absent, .absent⟩]).1.1, ?_⟩
  exact ((reasoning_tokens_clamped ⟨.num 1000, .num 500⟩ []).2 none 1000 500 (some 3)
    ⟨.absent, .absent, .absent⟩ true 3 (by
      show (some (3:ℚ)).map (fun r => min 500 r) = some 3
      norm_num [min_def])).1

/-- C3: for breakdowns produced by `buildUsageBreakdown` and any rate entry
with non-negative per-token rates, `buildCosts` yields exactly
`input_cost = input_tokens × input_rate`,
`output_cost = effective_output_tokens × output_rate`,
`reasoning_cost = reasoning_tokens × reasoning_rate`, and
`total = input_cost + output_cost + reasoning_cost` (exact rational
arithmetic, so no rounding drift at all). -/
theorem costs_linear_in_rates (su : StreamUsage) (cu : List (Option UsageEntry))
    (ri ro rr : ℚ) (hi : 0 ≤ ri) (ho : 0 ≤ ro) (hr : 0 ≤ rr) :
    buildCosts (buildUsageBreakdown su cu)
        (some { input_cost_per_token := some ri
                output_cost_per_token := some ro
                output_cost_per_reasoning_token := some rr }) =
      some { input := (buildUsageBreakdown su cu).inputTokens * ri
             output := (buildUsageBreakdown su cu).effectiveOutputTokens * ro
             reasoning := (buildUsageBreakdown su cu).reasoningTokens * rr
             total := (buildUsageBreakdown su cu).inputTokens * ri +
               (buildUsageBreakdown su cu).effectiveOutputTokens * ro +
               (buildUsageBreakdown su cu).reasoningTokens * rr } := by
  show some _ = some _
  simp only [jsOfOpt, toNonNegativeNumber, if_pos hi, if_pos ho, if_pos hr]
  rfl

/-- C3 witness: the spec scenario `input_tokens=1000, output_tokens=500,
reasoning_tokens=0, input_rate=5e-6, output_rate=15e-6` yields
`input_cost=0.005 (= 1/200), output_cost=0.0075 (= 3/400),
total=0.0125 (= 1/80)`. -/
theorem costs_linear_in_rates_witness :
    buildCosts (buildUsageBreakdown ⟨.num 1000, .num 500⟩ [])
        (some { input_cost_per_token := some (1/200000)
                output_cost_per_token := some (3/200000)
                output_cost_per_reasoning_token := some (3/200000) }) =
      some { input := 1/200, output := 3/400, reasoning := 0, total := 1/80 } := by
  have h := costs_linear_in_rates ⟨.num 1000, .num 500⟩ [] (1/200000) (3/200000)
    (3/200000) (by norm_num) (by norm_num) (by norm_num)
  rw [h]
  have hb : buildUsageBreakdown ⟨.num 1000, .num 500⟩ [] =
      { inputTokens := 1000, outputTokens := 500, effectiveInputTokens := 1000,
        effectiveOutputTokens := 500, reasoningTokens := 0 } := by
    simp [buildUsageBreakdown, toPositiveNumber]
  rw [hb]
  norm_num

/-- C4: if the response has no model identifier, or the LiteLLM model-info
map has no entry for it, the persisted `forked_litellm_usage` snapshot has
both `rates` and `costs` absent — the cost computation is skipped, never
defaulted to a zero cost. -/
theorem snapshot_omits_rates_and_costs_on_miss (model : Option String)
    (modelInfoMap : String → Option ModelInfo) (bd : UsageBreakdown)
    (h : Option.bind model modelInfoMap = none) :
    (buildUsageSnapshot model modelInfoMap bd).rates = none ∧
    (buildUsageSnapshot model modelInfoMap bd).costs = none := by
  cases model with
  | none => exact ⟨rfl, rfl⟩
  | some m =>
    have hm : modelInfoMap m = none := h
    constructor
    · show buildRates (modelInfoMap m) = none
      rw [hm]
      rfl
    · show buildCosts bd (buildRates (modelInfoMap m)) = none
      rw [hm]
      rfl

/-- C4 witness: a rate-cache miss for a concrete unknown model leaves both
fields absent. -/
theorem snapshot_omits_rates_and_costs_on_miss_witness :
    (buildUsageSnapshot (some ("unknown-model")) (fun _ => none)
        ⟨1000, 500, 1000, 500, 0⟩).rates = none ∧
    (buildUsageSnapshot (some ("unknown-model")) (fun _ => none)
        ⟨1000, 500, 1000, 500, 0⟩).costs = none :=
  snapshot_omits_rates_and_costs_on_miss (some ("unknown-model")) (fun _ => none)
    ⟨1000, 500, 1000, 500, 0⟩ rfl

/-- C5: an authenticated identity whose (lowercased) email is in the parsed
`LAGO_WHITELISTED_EMAILS` list, or whose user id is in the parsed
`LAGO_WHITELISTED_USERS` list, gets `hasSubscription: true, whitelisted: true`
with zero provider requests issued, for every possible provider behaviour
(the result does not depend on the provider oracles at all). -/
theorem whitelist_bypasses_provider (env : Env) (userId : String)
    (email : Option String) (k : String) (hk : env.apiKey = some k)
    (hw : (∃ e, email = some e ∧ (parseWhitelistedEmails env).contains (jsToLower e)) ∨
          (parseWhitelistedUsers env).contains userId) :
    ∀ customersQ subsQ checkoutQ,
      subscriptionHandler env userId email customersQ subsQ checkoutQ =
        (.ok whitelistGrantBody, 0) := by
  intro cq sq kq
  have hwh : whitelistHit env userId email = true := by
    unfold whitelistHit
    rcases hw with ⟨e, he, hc⟩ | hu
    · subst he
      simp only [hc, Bool.true_or]
    · simp only [hu, Bool.or_true]
  simp [subscriptionHandler, hk, hwh]

/-- C5 witness: a user whose email (case-insensitively) matches the
configured whitelist is granted without any provider call, here shown
against an erroring provider. -/
theorem whitelist_bypasses_provider_witness :
    subscriptionHandler ⟨some ("key"), some ("alice@example.com"), none⟩ ("u1")
        (some ("Alice@Example.com")) (.error ()) (.error ()) (.error ()) =
      (.ok whitelistGrantBody, 0) :=
  whitelist_bypasses_provider ⟨some ("key"), some ("alice@example.com"), none⟩
    ("u1") (some ("Alice@Example.com")) ("key") rfl
    (Or.inl ⟨("Alice@Example.com"), rfl, by decide⟩) (.error ()) (.error ())
    (.error ())

/-- C8: converting an amount USD→NOK and back NOK→USD with the same fixed
positive rate returns the original amount exactly (the rational model has no
rounding, so "within floating-point tolerance" holds with zero error). -/
theorem currency_round_trip (amount rate : ℚ) (h : 0 < rate) :
    convertCurrency (convertCurrency amount .USD .NOK (some rate)) .NOK .USD
        (some rate) = amount := by
  have hne : rate ≠ 0 := ne_of_gt h
  simp only [convertCurrency, not_le.mpr h]
  norm_num
  exact mul_div_cancel_right₀ amount hne

/-- C8 witness: round-tripping `7` USD at rate `41/4` returns `7`. -/
theorem currency_round_trip_witness :
    convertCurrency (convertCurrency 7 .USD .NOK (some (41/4))) .NOK .USD
        (some (41/4)) = 7 :=
  currency_round_trip 7 (41/4) (by norm_num)

/-- C1: whenever a billing-provider subscription query whose failure reaches
the route's catch handler throws — the `GET /customers` lookup, or the
`GET /subscriptions` lookup on the path that reaches it — the proxy returns
the fail-closed denial `{ hasSubscription: false, error: true,
fallback: false }`.  (The checkout-URL POST is excluded: `getCheckoutUrl`
catches its own failures and yields `null` without denying.) -/
theorem provider_error_fails_closed (env : Env) (userId : String) (email : String)
    (k : String) (hk : env.apiKey = some k)
    (hwl : whitelistHit env userId (some email) = false) :
    (∀ subsQ checkoutQ,
        subscriptionHandler env userId (some email) (.error ()) subsQ checkoutQ =
          (.ok errorDenialBody, 1)) ∧
    (∀ (customers : List Customer) (customer : Customer)
        (checkoutQ : Except Unit (Option String)),
        customers.find?
            (fun c =>
              match c.email with
              | some ce => jsToLower ce = jsToLower email
              | none => false) = some customer →
        strTruthy (customer.billing_configuration.getD ⟨none, none⟩).payment_provider =
          true →
        strTruthy
            (customer.billing_configuration.getD ⟨none, none⟩).provider_customer_id =
          true →
        subscriptionHandler env userId (some email) (.ok customers) (.error ())
            checkoutQ =
          (.ok errorDenialBody, 2)) := by
  constructor
  · intro subsQ checkoutQ
    simp [subscriptionHandler, hk, hwl]
  · intro customers customer checkoutQ hfind hpp hpc
    simp [subscriptionHandler, hk, hwl, hfind, hpp, hpc]

/-- C1 witness: a concrete request where the customers query throws, and one
where the subscriptions query throws for a customer with a configured
payment method; both return the fail-closed denial body. -/
theorem provider_error_fails_closed_witness :
    subscriptionHandler ⟨some ("key"), none, none⟩ ("u1") (some ("bob@example.com"))
        (.error ()) (.ok []) (.ok none) = (.ok errorDenialBody, 1) ∧
    subscriptionHandler ⟨some ("key"), none, none⟩ ("u1") (some ("bob@example.com"))
        (.ok [⟨some ("bob@example.com"), ("ext1"),
              some ⟨some ("stripe"), some ("cus_1")⟩⟩])
        (.error ()) (.ok none) = (.ok errorDenialBody, 2) := by
  have h := provider_error_fails_closed ⟨some ("key"), none, none⟩ ("u1")
    ("bob@example.com") ("key") rfl (by decide)
  exact ⟨h.1 (.ok []) (.ok none),
    h.2 [⟨some ("bob@example.com"), ("ext1"), some ⟨some ("stripe"), some ("cus_1")⟩⟩]
      ⟨some ("bob@example.com"), ("ext1"), some ⟨some ("stripe"), some ("cus_1")⟩⟩
      (.ok none) (by decide) (by decide) (by decide)⟩

/-- C6: two calls to `getLiteLLMModelInfoMap` that both run while the cache
is unpopulated or expired and before the in-flight fetch resolves issue
exactly one upstream fetch; the second call returns the same in-flight
promise the first call created. -/
theorem concurrent_calls_share_one_fetch (s : CacheState) (now now2 : ℕ)
    (hin : s.inflight = none)
    (h1 : cacheFresh s now = false) (h2 : cacheFresh s now2 = false) :
    (getCall s now).2 = .startFetch s.nextFetchId ∧
    (getCall (getCall s now).1 now2).2 = .awaitInflight s.nextFetchId ∧
    (getCall (getCall s now).1 now2).1.fetchesIssued = s.fetchesIssued + 1 := by
  cases hc : s.cache with
  | none =>
    simp [getCall, hc, getCallMiss, hin]
  | some m =>
    have hlt : ¬ (now - s.cacheTimestamp < CACHE_DURATION_MS) := by
      intro hl
      rw [cacheFresh, hc] at h1
      simp [hl] at h1
    have hlt2 : ¬ (now2 - s.cacheTimestamp < CACHE_DURATION_MS) := by
      intro hl
      rw [cacheFresh, hc] at h2
      simp [hl] at h2
    simp [getCall, hc, if_neg hlt, getCallMiss, hin, if_neg hlt2]

/-- C6 witness: from the initial module state (nothing cached, nothing in
flight), two back-to-back calls start exactly one fetch and share it. -/
theorem concurrent_calls_share_one_fetch_witness :
    (getCall ⟨none, 0, none, 0, 0⟩ 5).2 = .startFetch 0 ∧
    (getCall (getCall ⟨none, 0, none, 0, 0⟩ 5).1 6).2 = .awaitInflight 0 ∧
    (getCall (getCall ⟨none, 0, none, 0, 0⟩ 5).1 6).1.fetchesIssued = 0 + 1 :=
  concurrent_calls_share_one_fetch ⟨none, 0, none, 0, 0⟩ 5 6 rfl (by decide) (by decide)

/-- C10: when the upstream fetch fails, both cached-lookup functions resolve
with the stale cached value rather than propagating the error (the resolution
functions are total, so the promise always resolves): the model-info cache
resolves with the last cached map, or the empty map `{}` when nothing was
ever cached, and the currency adapter resolves with the last known rate, or
`null`. -/
theorem fetch_failure_resolves_with_stale_cache :
    (∀ (s : CacheState) (m : ModelInfoMap), s.cache = some m →
      (resolveFetchFailure s).2 = m) ∧
    (∀ (s : CacheState), s.cache = none → (resolveFetchFailure s).2 = []) ∧
    (∀ (s : CurrencyState) (now : ℕ) (r : ℚ), s.usdToNokRateCache = some r →
      (currencyFetchResolve s (.error ()) now).2 = some r) ∧
    (∀ (s : CurrencyState) (now : ℕ), s.usdToNokRateCache = none →
      (currencyFetchResolve s (.error ()) now).2 = none) := by
  refine ⟨?_, ?_, ?_, ?_⟩
  · intro s m h
    simp [resolveFetchFailure, h]
  · intro s h
    simp [resolveFetchFailure, h]
  · intro s now r h
    simp [currencyFetchResolve, h]
  · intro s now h
    simp [currencyFetchResolve, h]

/-- C10 witness: concrete failing fetches with and without a previously
cached value. -/
theorem fetch_failure_resolves_with_stale_cache_witness :
    (resolveFetchFailure ⟨some [(("m1"), ⟨.num 1, .num 2, .absent⟩)], 0, some 0, 1, 1⟩).2 =
      [(("m1"), ⟨.num 1, .num 2, .absent⟩)] ∧
    (resolveFetchFailure ⟨none, 0, some 0, 1, 1⟩).2 = [] ∧
    (currencyFetchResolve ⟨some 10, 0, false, true⟩ (.error ()) 50).2 = some 10 ∧
    (currencyFetchResolve ⟨none, 0, false, true⟩ (.error ()) 50).2 = none :=
  ⟨fetch_failure_resolves_with_stale_cache.1 _ _ rfl,
   fetch_failure_resolves_with_stale_cache.2.1 _ rfl,
   fetch_failure_resolves_with_stale_cache.2.2.1 _ 50 _ rfl,
   fetch_failure_resolves_with_stale_cache.2.2.2 _ 50 rfl⟩

/-- The sanitizers never return a negative value. -/
theorem toNonNegativeNumber_nonneg (v : JSNum) : 0 ≤ toNonNegativeNumber v := by
  cases v with
  | num q =>
    by_cases h : 0 ≤ q
    · simp [toNonNegativeNumber, h]
    · simp [toNonNegativeNumber, h]
  | absent => exact le_refl 0
  | nan => exact le_refl 0
  | inf => exact le_refl 0
  | ninf => exact le_refl 0

/-- A present finite non-negative value passes through `toNonNegativeNumber`
unchanged. -/
theorem toNonNegativeNumber_num_of_nonneg (q : ℚ) (h : 0 ≤ q) :
    toNonNegativeNumber (.num q) = q := by
  simp [toNonNegativeNumber, h]

/-- C7 counterexample: in the client breakdown a present reasoning rate equal
to `0` does NOT yield a reasoning cost of `0`: with output rate `3/200000`
(15e-6) and 100 reasoning tokens, `output_cost_per_reasoning_token = 0` falls
back through `||` to the output rate and the reasoning cost is `3/2000`, not
`0` as the claim requires. -/
theorem reasoning_rate_zero_client_counterexample :
    (buildBreakdownFromRates none 1000 200 (some 100)
        ⟨.num 0, .num (3/200000), .num 0⟩ true).reasoningCost = 3/2000 ∧
    (buildBreakdownFromRates none 1000 200 (some 100)
        ⟨.num 0, .num (3/200000), .num 0⟩ true).reasoningCost ≠ 0 := by
  have h : (buildBreakdownFromRates none 1000 200 (some 100)
      ⟨.num 0, .num (3/200000), .num 0⟩ true).reasoningCost = 3/2000 := by
    simp [buildBreakdownFromRates, jsOr, jsTruthy, toNonNegativeNumber]
    norm_num [min_def]
  exact ⟨h, by rw [h]; norm_num⟩

/-- C7 amended: the `reasoning_rate ?? output_rate` fallback holds in the
server-side computation — a present finite reasoning rate (including `0`) is
kept, an absent one falls back to the output rate, and a `0` reasoning rate
gives reasoning cost `0`.  The client-side breakdown instead uses JavaScript
`||`, so a present reasoning rate of `0` falls back to the (sanitized) output
rate; only a nonzero positive reasoning rate is used as-is. -/
theorem reasoning_rate_fallback_amended :
    (∀ (mi : ModelInfo) (q : ℚ), mi.output_cost_per_reasoning_token = .num q →
      buildRates (some mi) = some
        { input_cost_per_token := toOptionalNumber mi.input_cost_per_token
          output_cost_per_token := toOptionalNumber mi.output_cost_per_token
          output_cost_per_reasoning_token := some q }) ∧
    (∀ (mi : ModelInfo) (r : Rates), mi.output_cost_per_reasoning_token = .absent →
      buildRates (some mi) = some r →
      r.output_cost_per_reasoning_token = toOptionalNumber mi.output_cost_per_token) ∧
    (∀ (bd : UsageBreakdown) (i o : Option ℚ),
      (buildCosts bd (some ⟨i, o, some 0⟩)).map Costs.reasoning = some 0) ∧
    (∀ (model : Option String) (it ot : ℚ) (rt : Option ℚ) (ir oc : JSNum)
      (lr : Bool),
      (buildBreakdownFromRates model it ot rt ⟨ir, oc, .num 0⟩ lr).reasoningCost =
        (rt.map (fun r => min ot r)).getD 0 * toNonNegativeNumber oc) ∧
    (∀ (model : Option String) (it ot : ℚ) (rt : Option ℚ) (ir oc : JSNum) (q : ℚ)
      (lr : Bool), 0 < q →
      (buildBreakdownFromRates model it ot rt ⟨ir, oc, .num q⟩ lr).reasoningCost =
        (rt.map (fun r => min ot r)).getD 0 * q) := by
  refine ⟨?_, ?_, ?_, ?_, ?_⟩
  · intro mi q hq
    simp [buildRates, hq, toOptionalNumber, Option.orElse]
  · intro mi r habs hr
    simp [buildRates, habs, toOptionalNumber, Option.orElse] at hr
    rcases hr with ⟨-, hr⟩
    rw [← hr]
    rfl
  · intro bd i o
    simp [buildCosts, jsOfOpt, toNonNegativeNumber]
  · intro model it ot rt ir oc lr
    show (rt.map (fun r => min ot r)).getD 0 *
        toNonNegativeNumber (jsOr (.num 0) (.num (toNonNegativeNumber oc))) = _
    have h0 : jsTruthy (.num 0) = false := by simp [jsTruthy]
    rw [jsOr, h0, if_neg (by simp),
      toNonNegativeNumber_num_of_nonneg _ (toNonNegativeNumber_nonneg oc)]
  · intro model it ot rt ir oc q lr hq
    show (rt.map (fun r => min ot r)).getD 0 *
        toNonNegativeNumber (jsOr (.num q) (.num (toNonNegativeNumber oc))) = _
    have hqt : jsTruthy (.num q) = true := by simp [jsTruthy, ne_of_gt hq]
    rw [jsOr, hqt]
    simp [toNonNegativeNumber, le_of_lt hq]

/-- C7 amended witness: a server rate entry with reasoning rate `0` keeps it
(`?? `), and a client breakdown with a present positive reasoning rate
`1/100000` uses it as-is. -/
theorem reasoning_rate_fallback_amended_witness :
    buildRates (some ⟨.num (1/200000), .num (3/200000), .num 0⟩) =
      some { input_cost_per_token := some (1/200000)
             output_cost_per_token := some (3/200000)
             output_cost_per_reasoning_token := some 0 } ∧
    (buildBreakdownFromRates none 1000 200 (some 100)
        ⟨.num 0, .num (3/200000), .num (1/100000)⟩ true).reasoningCost =
      100 * (1/100000) := by
  constructor
  · exact reasoning_rate_fallback_amended.1 ⟨.num (1/200000), .num (3/200000), .num 0⟩
      0 rfl
  · have h := reasoning_rate_fallback_amended.2.2.2.2 none 1000 200 (some 100)
      (.num 0) (.num (3/200000)) (1/100000) true (by norm_num)
    rw [h]
    norm_num [min_def]

/-- C9: the currency cache stores the USD→NOK multiplier, its fetch
timestamp and the `lastFetchFailed` flag; a failed fetch sets the flag, and
the flag selects the shortened `FAILURE_BACKOFF_MS` (60 s) cooldown instead
of the normal `CACHE_DURATION_MS` TTL (1 h), so after a failed fetch a new
upstream fetch becomes permitted as soon as `FAILURE_BACKOFF_MS` has elapsed
— sooner than the TTL, which still governs the backoff after a success. -/
theorem currency_failure_shortens_backoff (s : CurrencyState) (t now : ℕ) (r : ℚ)
    (hr : 0 < r) :
    (currencyFetchResolve s (.error ()) t).1.lastFetchFailed = true ∧
    (((currencyCall (currencyFetchResolve s (.error ()) t).1 now).2 =
        .startFetch) ↔ FAILURE_BACKOFF_MS ≤ now - t) ∧
    (((currencyCall (currencyFetchResolve s (.ok (.num r)) t).1 now).2 =
        .startFetch) ↔ CACHE_DURATION_MS ≤ now - t) ∧
    FAILURE_BACKOFF_MS < CACHE_DURATION_MS := by
  have hfail : (currencyFetchResolve s (.error ()) t).1 =
      ⟨s.usdToNokRateCache, t, true, false⟩ := rfl
  have hsucc : (currencyFetchResolve s (.ok (.num r)) t).1 =
      ⟨some r, t, false, false⟩ := by
    simp [currencyFetchResolve, toOptionalNumber, hr]
  rw [hfail, hsucc]
  refine ⟨rfl, ?_, ?_, by norm_num [FAILURE_BACKOFF_MS, CACHE_DURATION_MS]⟩
  · unfold currencyCall
    by_cases hlt : now - t < FAILURE_BACKOFF_MS
    · simp [hlt, Nat.not_le.mpr hlt]
    · simp [hlt, Nat.le_of_not_lt hlt]
  · unfold currencyCall
    by_cases hlt : now - t < CACHE_DURATION_MS
    · simp [hlt, Nat.not_le.mpr hlt]
    · simp [hlt, Nat.le_of_not_lt hlt]

/-- C9 witness: after a failure stamped at `t = 1000`, a call at
`now = 70000` — long before the 1 h TTL would have elapsed — already starts
a new upstream fetch. -/
theorem currency_failure_shortens_backoff_witness :
    (currencyCall (currencyFetchResolve ⟨none, 0, false, true⟩ (.error ()) 1000).1
        70000).2 = .startFetch ∧ 70000 - 1000 < CACHE_DURATION_MS :=
  ⟨(currency_failure_shortens_backoff ⟨none, 0, false, true⟩ 1000 70000 10
      (by norm_num)).2.1.mpr (by decide),
   by decide⟩
